import Mathlib

/-!
Verification development for the archive-maildir repository.

The repository archives email messages from a maildir into dated
sub-maildirs.  Three Rust source files are embedded here:

- src/archiver.rs: the archival strategies (DryRun, Move, Copy) returning
  a Result; filesystem and maildir-library effects are modelled by explicit
  state passing, with a failure profile (FailSpec) choosing the outcome of
  each fallible primitive and a trace recording which primitives were
  attempted, in order.
- src/main.rs: the self-contained pipeline driver (enumeration, date
  filter, path resolution, dispatch to the archiver), whose own archiver
  copies unwrap every fallible call; an unwrap failure is modelled as a
  panic flag that aborts the run.
- src/args.rs: the SplitBy policy enumeration (with a None variant) and
  the one_year_ago default cutoff computation.

Machine integers are modelled as Int and Nat; byte buffers as List Nat;
flag sets as List Char; fallible results as Option.
-/

namespace ArchiveMaildir

/-- A message in the source maildir: stable id, raw byte content (the file
at mail.path holds exactly this content), status flags, and the outcome of
mail.received (none models an unparseable or missing date header). -/
structure Msg where
  id : String
  content : List Nat
  flags : List Char
  received : Option Int
  deriving DecidableEq, Repr

/-- Outcome oracle for the fallible filesystem and maildir primitives used
by one archive_email invocation: true means that primitive fails. -/
structure FailSpec where
  openFails : Bool
  createDirsFails : Bool
  readFails : Bool
  storeFails : Bool
  deleteFails : Bool
  deriving DecidableEq, Repr

/-- The all-success outcome. -/
def FailSpec.noFail : FailSpec :=
  { openFails := false, createDirsFails := false, readFails := false,
    storeFails := false, deleteFails := false }

/-- A destination maildir: the list of (content, flags) pairs stored into
its cur area, and whether its directory structure has been created. -/
structure DstBox where
  stored : List (List Nat × List Char)
  created : Bool
  deriving DecidableEq, Repr

/-- A destination maildir that does not exist yet on disk. -/
def DstBox.empty : DstBox := { stored := [], created := false }

/-- The filesystem and maildir primitives attempted by archive_email, in
the order the Rust code issues them. -/
inductive Op where
  | openF
  | mkDirs
  | readF
  | store
  | delete
  deriving DecidableEq, Repr

/-- Result of one strategy invocation from src/archiver.rs: err records the
first failing primitive (none on success, matching Ok(())), the source
message list and destination box afterwards, and the trace of primitives
attempted in order. -/
structure StratResult where
  err : Option Op
  src : List Msg
  dst : DstBox
  trace : List Op
  deriving DecidableEq, Repr

/-- Removal of the message with the given id, embedding from_maildir.delete. -/
def srcDelete (src : List Msg) (i : String) : List Msg :=
  src.filter (fun m => m.id ≠ i)

/-- Embeds MoveMaildirArchiver::archive_email, src/archiver.rs lines 63-79:
open the source file, create the destination directories, read the file,
store into the destination cur area with the original flags, then delete
from the source; every step propagates failure with the question-mark
operator. -/
def moveArchive (fp : FailSpec) (mail : Msg) (src : List Msg) (dst : DstBox) :
    StratResult :=
  if fp.openFails then
    { err := some Op.openF, src := src, dst := dst, trace := [Op.openF] }
  else if fp.createDirsFails then
    { err := some Op.mkDirs, src := src, dst := dst,
      trace := [Op.openF, Op.mkDirs] }
  else if fp.readFails then
    { err := some Op.readF, src := src, dst := { dst with created := true },
      trace := [Op.openF, Op.mkDirs, Op.readF] }
  else if fp.storeFails then
    { err := some Op.store, src := src, dst := { dst with created := true },
      trace := [Op.openF, Op.mkDirs, Op.readF, Op.store] }
  else if fp.deleteFails then
    { err := some Op.delete, src := src,
      dst := { stored := dst.stored ++ [(mail.content, mail.flags)],
               created := true },
      trace := [Op.openF, Op.mkDirs, Op.readF, Op.store, Op.delete] }
  else
    { err := none, src := srcDelete src mail.id,
      dst := { stored := dst.stored ++ [(mail.content, mail.flags)],
               created := true },
      trace := [Op.openF, Op.mkDirs, Op.readF, Op.store, Op.delete] }

/-- Embeds CopyMaildirArchiver::archive_email, src/archiver.rs lines 84-99:
identical to the Move strategy except that the source maildir argument is
ignored and no delete is issued. -/
def copyArchive (fp : FailSpec) (mail : Msg) (src : List Msg) (dst : DstBox) :
    StratResult :=
  if fp.openFails then
    { err := some Op.openF, src := src, dst := dst, trace := [Op.openF] }
  else if fp.createDirsFails then
    { err := some Op.mkDirs, src := src, dst := dst,
      trace := [Op.openF, Op.mkDirs] }
  else if fp.readFails then
    { err := some Op.readF, src := src, dst := { dst with created := true },
      trace := [Op.openF, Op.mkDirs, Op.readF] }
  else if fp.storeFails then
    { err := some Op.store, src := src, dst := { dst with created := true },
      trace := [Op.openF, Op.mkDirs, Op.readF, Op.store] }
  else
    { err := none, src := src,
      dst := { stored := dst.stored ++ [(mail.content, mail.flags)],
               created := true },
      trace := [Op.openF, Op.mkDirs, Op.readF, Op.store] }

/-- Embeds DryRunMaildirArchiver::archive_email, src/archiver.rs lines
49-58: ignores every argument and returns Ok(()) with no effect. -/
def dryRunArchive (_mail : Msg) (src : List Msg) (dst : DstBox) : StratResult :=
  { err := none, src := src, dst := dst, trace := [] }

/-! Decimal formatting, embedding the Rust Display and chrono strftime
digit output.  decDigitsF is fuel-structured so that it reduces in the
kernel; the fuel n + 1 always suffices for the number n. -/

/-- Decimal digit characters of n, most significant first, given enough
fuel (fuel 0 yields the empty list). -/
def decDigitsF (fuel n : Nat) : List Char :=
  match fuel with
  | 0 => []
  | fuel' + 1 =>
    if n < 10 then [Nat.digitChar n]
    else decDigitsF fuel' (n / 10) ++ [Nat.digitChar (n % 10)]

/-- Decimal digit characters of n, most significant first. -/
def decDigits (n : Nat) : List Char := decDigitsF (n + 1) n

/-- Left padding with a fill character up to the given width. -/
def padLeft (c : Char) (w : Nat) (s : List Char) : List Char :=
  List.replicate (w - s.length) c ++ s

/-- Decimal rendering of n zero-padded on the left to the given width. -/
def fmtNat (w n : Nat) : String := String.mk (padLeft '0' w (decDigits n))

/-- Embeds the chrono %Y specifier: the year zero-padded to four digits,
with a leading sign for negative years. -/
def fmtYear (y : Int) : String :=
  if y < 0 then String.mk ('-' :: padLeft '0' 4 (decDigits y.natAbs))
  else fmtNat 4 y.toNat

/-- Embeds the chrono %m and %d specifiers: two-digit zero-padded. -/
def fmt2 (n : Nat) : String := fmtNat 2 n

/-- The split policy of src/main.rs lines 11-15 (no None variant). -/
inductive MainSplitBy where
  | year
  | month
  | day
  deriving DecidableEq, Repr

/-- The split policy of src/args.rs lines 20-25, including None. -/
inductive SplitBy where
  | year
  | month
  | day
  | none
  deriving DecidableEq, Repr

/-- Embeds the date formatting of src/main.rs lines 241-245: strftime
format %Y for Year, %Y-%m for Month, %Y-%m-%d for Day. -/
def formatSplitMain (p : MainSplitBy) (y : Int) (m d : Nat) : String :=
  match p with
  | MainSplitBy.year => fmtYear y
  | MainSplitBy.month => fmtYear y ++ "-" ++ fmt2 m
  | MainSplitBy.day => fmtYear y ++ "-" ++ fmt2 m ++ "-" ++ fmt2 d

/-- Modelled from the spec: the driver that formats the SplitBy::None
variant of src/args.rs is not under src (only the enumeration declares
None); per the spec, None formats to the empty string, while Year, Month
and Day reuse the formats of src/main.rs lines 241-245. -/
def formatSplit (p : SplitBy) (y : Int) (m d : Nat) : String :=
  match p with
  | SplitBy.year => formatSplitMain MainSplitBy.year y m d
  | SplitBy.month => formatSplitMain MainSplitBy.month y m d
  | SplitBy.day => formatSplitMain MainSplitBy.day y m d
  | SplitBy.none => ""

/-- The Path Resolver: the destination maildir root is the output
directory joined with the concatenation of the configured name parts built
around the formatted date (src/main.rs lines 237-248; pfx and sfx embed
the two configurable name parts surrounding the date). -/
def resolve (outputDir pfx sfx : String) (p : SplitBy) (y : Int) (m d : Nat) :
    String :=
  outputDir ++ "/" ++ (pfx ++ formatSplit p y m d ++ sfx)

/-- Civil calendar date (year, month, day) of a day number relative to
1970-01-01, embedding the conversion chrono performs in NaiveDateTime date
handling (the standard era-based algorithm; division is C truncation). -/
def civilFromDays (z : Int) : Int × Nat × Nat :=
  let zz := z + 719468
  let era : Int := (if 0 ≤ zz then zz else zz - 146096).tdiv 146097
  let doe : Nat := (zz - era * 146097).toNat
  let yoe : Nat := (doe - doe / 1460 + doe / 36524 - doe / 146096) / 365
  let y : Int := (yoe : Int) + era * 400
  let doy : Nat := doe - (365 * yoe + yoe / 4 - yoe / 100)
  let mp : Nat := (5 * doy + 2) / 153
  let d : Nat := doy - (153 * mp + 2) / 5 + 1
  let m : Nat := if mp < 10 then mp + 3 else mp - 9
  (if m ≤ 2 then y + 1 else y, m, d)

/-- Day number relative to 1970-01-01 of a civil date (inverse of
civilFromDays, same standard algorithm). -/
def daysFromCivil (y : Int) (m d : Nat) : Int :=
  let yy : Int := if m ≤ 2 then y - 1 else y
  let era : Int := (if 0 ≤ yy then yy else yy - 399).tdiv 400
  let yoe : Nat := (yy - era * 400).toNat
  let doy : Nat := (153 * (if 2 < m then m - 3 else m + 9) + 2) / 5 + d - 1
  let doe : Nat := yoe * 365 + yoe / 4 - yoe / 100 + doy
  era * 146097 + (doe : Int) - 719468

/-- Embeds NaiveDateTime::from_timestamp(ts, 0).date() of src/main.rs line
234, as a day number: floor division of the epoch seconds by 86400
discards the time of day. -/
def dateOfTimestamp (ts : Int) : Int := ts.fdiv 86400

/-- The archive mode of src/main.rs lines 17-21. -/
inductive ArchiveMode where
  | move
  | copy
  | dryRun
  deriving DecidableEq, Repr

/-- The driver configuration of src/main.rs (ProgramOptions restricted to
the fields the pipeline loop reads); the cutoff date is a day number, and
pfx and sfx embed the two configurable destination-name parts. -/
structure MainOpts where
  outputDir : String
  pfx : String
  sfx : String
  splitBy : MainSplitBy
  before : Int
  mode : ArchiveMode

/-- Embeds the destination folder construction of src/main.rs lines
237-248: output_dir joined with the formatted name for the message date. -/
def destFolder (o : MainOpts) (date : Int) : String :=
  o.outputDir ++ "/" ++
    (o.pfx ++
      formatSplitMain o.splitBy (civilFromDays date).1 (civilFromDays date).2.1
        (civilFromDays date).2.2 ++ o.sfx)

/-- The mutable world of one run: the source maildir cur listing and every
destination maildir, indexed by folder path. -/
structure World where
  src : List Msg
  dests : String → DstBox

/-- The destination maildir at a folder path (a maildir not written yet is
the empty, uncreated one). -/
def getDest (w : World) (p : String) : DstBox := w.dests p

/-- Replacement of the destination maildir at a folder path. -/
def setDest (w : World) (p : String) (b : DstBox) : World :=
  { w with dests := fun q => if q = p then b else w.dests q }

/-- The fresh world for a run over a given source listing. -/
def initWorld (src0 : List Msg) : World :=
  { src := src0, dests := fun _ => DstBox.empty }

/-- Marking a destination maildir as created on disk, embedding
to_maildir.create_dirs() of src/main.rs line 249. -/
def markCreated (b : DstBox) : DstBox := { b with created := true }

/-- Appending one stored message to the destination maildir at a folder,
embedding store_cur_with_flags with the message content and flags. -/
def storeInto (w : World) (p : String) (m : Msg) : World :=
  setDest w p
    { getDest w p with
      stored := (getDest w p).stored ++ [(m.content, m.flags)] }

/-- Deleting the message with the given id from the source maildir,
embedding from_maildir.delete. -/
def deleteFromSrc (w : World) (i : String) : World :=
  { w with src := srcDelete w.src i }

/-- The log lines the driver of src/main.rs can emit per message, plus a
summary form (which the spec expects after enumeration); which of these
the code actually emits is settled by the theorems below. -/
inductive LogEvent where
  | enumError
  | dateError (id : String)
  | olderDebug (id : String)
  | archivingInfo (id : String)
  | ignoringDebug (id : String)
  | summary (archived total : Nat)
  deriving DecidableEq, Repr

/-- One entry produced by list_cur during enumeration: either a corrupt
entry (Err) or a message together with the outcome oracle for the
primitives its processing will attempt. -/
inductive Entry where
  | err
  | ok (m : Msg) (fp : FailSpec)

/-- Result of processing one entry: the world afterwards, the log lines
emitted, and whether an unwrap panicked (aborting the run). -/
structure StepRes where
  w : World
  log : List LogEvent
  panic : Bool

/-- Embeds the archive_email implementations of src/main.rs lines 140-199
as invoked through the unwrap on line 258: every fallible primitive is
unwrapped, so a failure is a panic; Move stores then deletes, Copy only
stores, DryRun does nothing.  These archivers do not create directories
(the driver already did). -/
def archiveMain (mode : ArchiveMode) (m : Msg) (fp : FailSpec) (w : World)
    (folder : String) (log : List LogEvent) : StepRes :=
  match mode with
  | ArchiveMode.dryRun => { w := w, log := log, panic := false }
  | ArchiveMode.copy =>
    if fp.openFails then { w := w, log := log, panic := true }
    else if fp.readFails then { w := w, log := log, panic := true }
    else if fp.storeFails then { w := w, log := log, panic := true }
    else { w := storeInto w folder m, log := log, panic := false }
  | ArchiveMode.move =>
    if fp.openFails then { w := w, log := log, panic := true }
    else if fp.readFails then { w := w, log := log, panic := true }
    else if fp.storeFails then { w := w, log := log, panic := true }
    else if fp.deleteFails then
      { w := storeInto w folder m, log := log, panic := true }
    else
      { w := deleteFromSrc (storeInto w folder m) m.id, log := log,
        panic := false }

/-- Embeds the per-entry body of the driver loop, src/main.rs lines
229-272: a corrupt entry is logged and skipped; a message with no
extractable date is logged and skipped; a message dated before the cutoff
has its destination folder resolved, the destination directories created
(create_dirs().unwrap() on line 249, panicking on failure, in every mode),
and is handed to the archiver; otherwise it is ignored with a debug log. -/
def stepMain (o : MainOpts) (w : World) : Entry → StepRes
  | Entry.err => { w := w, log := [LogEvent.enumError], panic := false }
  | Entry.ok m fp =>
    match m.received with
    | Option.none => { w := w, log := [LogEvent.dateError m.id], panic := false }
    | Option.some ts =>
      if dateOfTimestamp ts < o.before then
        if fp.createDirsFails then
          { w := w, log := [LogEvent.olderDebug m.id], panic := true }
        else
          archiveMain o.mode m fp
            (setDest w (destFolder o (dateOfTimestamp ts))
              (markCreated (getDest w (destFolder o (dateOfTimestamp ts)))))
            (destFolder o (dateOfTimestamp ts))
            [LogEvent.olderDebug m.id, LogEvent.archivingInfo m.id]
      else
        { w := w, log := [LogEvent.ignoringDebug m.id], panic := false }

/-- Result of a whole run: final world, accumulated log, and whether the
run aborted in a panic. -/
structure RunRes where
  w : World
  log : List LogEvent
  panic : Bool

/-- The driver loop over the enumeration, src/main.rs lines 229-272: each
entry is processed in order; a panic aborts the run immediately (no later
entry is processed); exhausting the enumeration ends the run. -/
def runMainAux (o : MainOpts) : List Entry → World → List LogEvent → RunRes
  | [], w, log => { w := w, log := log, panic := false }
  | e :: es, w, log =>
    if (stepMain o w e).panic then
      { w := (stepMain o w e).w, log := log ++ (stepMain o w e).log,
        panic := true }
    else runMainAux o es (stepMain o w e).w (log ++ (stepMain o w e).log)

/-- A full run of the driver of src/main.rs over a source listing and its
enumeration. -/
def runMain (o : MainOpts) (src0 : List Msg) (entries : List Entry) : RunRes :=
  runMainAux o entries (initWorld src0) []

/-- The current UTC date (year, month, day); the time of day never
participates in the computations embedded here. -/
structure DateTimeU where
  year : Int
  month : Nat
  day : Nat
  deriving DecidableEq, Repr

/-- Embeds the Gregorian leap-year test used by both date libraries in the
sources (remainder tests against 4, 100 and 400). -/
def isLeap (y : Int) : Bool :=
  decide (y % 4 = 0 ∧ (y % 100 ≠ 0 ∨ y % 400 = 0))

/-- Number of days in a month of a year. -/
def daysInMonth (y : Int) (m : Nat) : Nat :=
  if m = 2 then (if isLeap y then 29 else 28)
  else if m = 4 ∨ m = 6 ∨ m = 9 ∨ m = 11 then 30
  else 31

/-- A well-formed calendar date-time. -/
def ValidDT (d : DateTimeU) : Prop :=
  1 ≤ d.month ∧ d.month ≤ 12 ∧ 1 ≤ d.day ∧ d.day ≤ daysInMonth d.year d.month

/-- A well-formed calendar date within the four-digit-year range handled
by the before argument of src/args.rs (the time crate Date range). -/
def ValidYMD (y : Int) (m d : Nat) : Prop :=
  1 ≤ m ∧ m ≤ 12 ∧ 1 ≤ d ∧ d ≤ daysInMonth y m ∧ 0 ≤ y ∧ y ≤ 9999

/-- Embeds with_year of src/main.rs line 215 (and replace_year of
src/args.rs line 29): replace the year component, returning none when the
resulting date does not exist. -/
def withYear (d : DateTimeU) (y : Int) : Option DateTimeU :=
  if d.day ≤ daysInMonth y d.month then some { d with year := y } else none

/-- Embeds one_year_ago, src/args.rs lines 27-30, and the None arm of
src/main.rs lines 213-216: the current UTC date-time with its year
replaced by the previous year; none models the panic of the unwrap. -/
def oneYearAgo (now : DateTimeU) : Option DateTimeU :=
  withYear now (now.year - 1)

/-- Embeds the cutoff computation and run of src/main.rs lines 209-272:
an explicit before argument (already parsed, as a day number) is used
directly; with no before argument the default cutoff is the current UTC
date-time moved back one year, and the unwrap on that replacement panics
before any message is processed when the replacement fails. -/
def runProgram (beforeArg : Option Int) (now : DateTimeU) (o : MainOpts)
    (src0 : List Msg) (entries : List Entry) : RunRes :=
  match beforeArg with
  | Option.some b => runMain { o with before := b } src0 entries
  | Option.none =>
    match oneYearAgo now with
    | Option.none => { w := initWorld src0, log := [], panic := true }
    | Option.some d =>
      runMain { o with before := daysFromCivil d.year d.month d.day }
        src0 entries

/-- Sample message dated 2020-01-01 (epoch seconds 1577836800, day number
18262), matching the first message of the spec scenario. -/
def msgA : Msg :=
  { id := "m1", content := [104, 105], flags := ['S'],
    received := some 1577836800 }

/-- Sample message dated 2023-06-01 (epoch seconds 1685577600, day number
19509), matching the second message of the spec scenario. -/
def msgB : Msg :=
  { id := "m2", content := [121, 111], flags := [],
    received := some 1685577600 }

/-- Sample driver configuration: output directory out, empty name parts,
split by year, cutoff 2022-01-01 (day number 18993), Move mode. -/
def optsStd : MainOpts :=
  { outputDir := "out", pfx := "", sfx := "", splitBy := MainSplitBy.year,
    before := 18993, mode := ArchiveMode.move }

/-! Helper lemmas shared by the claim theorems. -/

theorem decDigitsF_length_le :
    ∀ (fuel k n : Nat), 1 ≤ k → n < 10 ^ k →
      (decDigitsF fuel n).length ≤ k := by
  intro fuel
  induction fuel with
  | zero => intro k n hk _; simp [decDigitsF]
  | succ f ih =>
    intro k n hk hn
    by_cases h : n < 10
    · simpa [decDigitsF, h] using hk
    · obtain ⟨k', rfl⟩ : ∃ k', k = k' + 1 := ⟨k - 1, by omega⟩
      have hk' : 1 ≤ k' := by
        rcases Nat.eq_zero_or_pos k' with h0 | h1
        · subst h0; simp at hn; omega
        · exact h1
      have hdiv : n / 10 < 10 ^ k' := by
        have h10 : n < 10 ^ k' * 10 := by
          calc n < 10 ^ (k' + 1) := hn
          _ = 10 ^ k' * 10 := by rw [pow_succ]
        exact (Nat.div_lt_iff_lt_mul (by norm_num)).mpr h10
      have hrec := ih k' (n / 10) hk' hdiv
      simp only [decDigitsF, if_neg h, List.length_append, List.length_cons,
        List.length_nil]
      omega

theorem decDigits_length_le (n k : Nat) (hk : 1 ≤ k) (hn : n < 10 ^ k) :
    (decDigits n).length ≤ k :=
  decDigitsF_length_le _ _ _ hk hn

theorem padLeft_length (c : Char) (w : Nat) (s : List Char)
    (h : s.length ≤ w) : (padLeft c w s).length = w := by
  simp [padLeft]
  omega

theorem fmtYear_length (y : Int) (h0 : 0 ≤ y) (h1 : y ≤ 9999) :
    (fmtYear y).length = 4 := by
  have hnat : y.toNat < 10 ^ 4 := by
    have : y.toNat ≤ 9999 := by omega
    omega
  have hlen := decDigits_length_le y.toNat 4 (by norm_num) hnat
  rw [fmtYear, if_neg (by omega)]
  show (String.mk (padLeft '0' 4 (decDigits y.toNat))).length = 4
  show (padLeft '0' 4 (decDigits y.toNat)).length = 4
  exact padLeft_length _ _ _ hlen

theorem fmt2_length (n : Nat) (h : n < 100) : (fmt2 n).length = 2 := by
  have hlen := decDigits_length_le n 2 (by norm_num) (by omega)
  show (padLeft '0' 2 (decDigits n)).length = 2
  exact padLeft_length _ _ _ hlen

theorem getDest_setDest (w : World) (p : String) (b : DstBox) (q : String) :
    getDest (setDest w p b) q = if q = p then b else getDest w q := rfl

theorem getDest_storeInto (w : World) (p : String) (m : Msg) (q : String) :
    getDest (storeInto w p m) q =
      if q = p then
        { getDest w p with
          stored := (getDest w p).stored ++ [(m.content, m.flags)] }
      else getDest w q := rfl

theorem storeInto_src (w : World) (p : String) (m : Msg) :
    (storeInto w p m).src = w.src := rfl

theorem getDest_deleteFromSrc (w : World) (i : String) (q : String) :
    getDest (deleteFromSrc w i) q = getDest w q := rfl

theorem archiveMain_log (mode : ArchiveMode) (m : Msg) (fp : FailSpec)
    (w : World) (folder : String) (log : List LogEvent) :
    (archiveMain mode m fp w folder log).log = log := by
  obtain ⟨fo, fc, fr, fs, fd⟩ := fp
  cases mode <;> cases fo <;> cases fr <;> cases fs <;> cases fd <;> rfl

theorem stepMain_src (o : MainOpts) (w : World) (e : Entry)
    (h : o.mode = ArchiveMode.copy ∨ o.mode = ArchiveMode.dryRun) :
    (stepMain o w e).w.src = w.src := by
  cases e with
  | err => rfl
  | ok m fp =>
    cases hr : m.received with
    | none => simp [stepMain, hr]
    | some ts =>
      simp only [stepMain, hr]
      by_cases hd : dateOfTimestamp ts < o.before
      · rw [if_pos hd]
        by_cases hcd : fp.createDirsFails = true
        · rw [if_pos hcd]
        · rw [if_neg hcd]
          obtain ⟨fo, fc, fr, fs, fd⟩ := fp
          rcases h with hm | hm <;> rw [hm] <;>
            cases fo <;> cases fr <;> cases fs <;> cases fd <;> rfl
      · rw [if_neg hd]

theorem stepMain_stored_dryRun (o : MainOpts) (w : World) (e : Entry)
    (h : o.mode = ArchiveMode.dryRun)
    (hw : ∀ p, (getDest w p).stored = []) :
    ∀ p, (getDest (stepMain o w e).w p).stored = [] := by
  cases e with
  | err => exact hw
  | ok m fp =>
    cases hr : m.received with
    | none => simpa [stepMain, hr] using hw
    | some ts =>
      simp only [stepMain, hr]
      by_cases hd : dateOfTimestamp ts < o.before
      · rw [if_pos hd]
        by_cases hcd : fp.createDirsFails = true
        · rw [if_pos hcd]; exact hw
        · rw [if_neg hcd, h]
          intro p
          simp only [archiveMain]
          rw [getDest_setDest]
          by_cases hq : p = destFolder o (dateOfTimestamp ts)
          · rw [if_pos hq]
            show (getDest w (destFolder o (dateOfTimestamp ts))).stored = []
            exact hw _
          · rw [if_neg hq]; exact hw p
      · rw [if_neg hd]; exact hw

theorem stepMain_no_summary (o : MainOpts) (w : World) (e : Entry)
    (a t : Nat) : LogEvent.summary a t ∉ (stepMain o w e).log := by
  cases e with
  | err => simp [stepMain]
  | ok m fp =>
    cases hr : m.received with
    | none => simp [stepMain, hr]
    | some ts =>
      simp only [stepMain, hr]
      by_cases hd : dateOfTimestamp ts < o.before
      · rw [if_pos hd]
        by_cases hcd : fp.createDirsFails = true
        · rw [if_pos hcd]; simp
        · rw [if_neg hcd, archiveMain_log]; simp
      · rw [if_neg hd]; simp

theorem runMainAux_src (o : MainOpts)
    (h : o.mode = ArchiveMode.copy ∨ o.mode = ArchiveMode.dryRun) :
    ∀ (es : List Entry) (w : World) (log : List LogEvent),
      (runMainAux o es w log).w.src = w.src := by
  intro es
  induction es with
  | nil => intro w log; rfl
  | cons e es ih =>
    intro w log
    simp only [runMainAux]
    by_cases hp : (stepMain o w e).panic = true
    · rw [if_pos hp]; exact stepMain_src o w e h
    · rw [if_neg hp, ih]; exact stepMain_src o w e h

theorem runMainAux_stored_dryRun (o : MainOpts)
    (h : o.mode = ArchiveMode.dryRun) :
    ∀ (es : List Entry) (w : World) (log : List LogEvent),
      (∀ p, (getDest w p).stored = []) →
      ∀ p, (getDest (runMainAux o es w log).w p).stored = [] := by
  intro es
  induction es with
  | nil => intro w log hw; exact hw
  | cons e es ih =>
    intro w log hw
    simp only [runMainAux]
    by_cases hp : (stepMain o w e).panic = true
    · rw [if_pos hp]; exact stepMain_stored_dryRun o w e h hw
    · rw [if_neg hp]; exact ih _ _ (stepMain_stored_dryRun o w e h hw)

theorem runMainAux_no_summary (o : MainOpts) :
    ∀ (es : List Entry) (w : World) (log : List LogEvent) (a t : Nat),
      LogEvent.summary a t ∉ log →
      LogEvent.summary a t ∉ (runMainAux o es w log).log := by
  intro es
  induction es with
  | nil => intro w log a t hl; exact hl
  | cons e es ih =>
    intro w log a t hl
    simp only [runMainAux]
    by_cases hp : (stepMain o w e).panic = true
    · rw [if_pos hp]
      simp only [List.mem_append]
      rintro (hc | hc)
      · exact hl hc
      · exact stepMain_no_summary o w e a t hc
    · rw [if_neg hp]
      refine ih _ _ a t ?_
      simp only [List.mem_append]
      rintro (hc | hc)
      · exact hl hc
      · exact stepMain_no_summary o w e a t hc

/-! Claim theorems. -/

/-- C1: in the Move strategy of src/archiver.rs, the delete from the
source is attempted only after the store into the destination has
succeeded (a delete in the trace means every earlier primitive, the store
included, succeeded and preceded it), and when opening, reading or storing
fails archive_email returns an error with the source left unchanged and no
delete attempted, so the message is still present in the source. -/
theorem move_write_then_delete (fp : FailSpec) (mail : Msg) (src : List Msg)
    (dst : DstBox) :
    (Op.delete ∈ (moveArchive fp mail src dst).trace →
      (moveArchive fp mail src dst).trace =
        [Op.openF, Op.mkDirs, Op.readF, Op.store, Op.delete] ∧
      fp.openFails = false ∧ fp.createDirsFails = false ∧
      fp.readFails = false ∧ fp.storeFails = false) ∧
    ((fp.openFails = true ∨ fp.readFails = true ∨ fp.storeFails = true) →
      (∃ e, (moveArchive fp mail src dst).err = some e) ∧
      (moveArchive fp mail src dst).src = src ∧
      Op.delete ∉ (moveArchive fp mail src dst).trace) := by
  obtain ⟨fo, fc, fr, fs, fd⟩ := fp
  cases fo <;> cases fc <;> cases fr <;> cases fs <;> cases fd <;>
    simp [moveArchive]

/-- Witness for C1: with a failing store and a one-message source, the
Move strategy errors out, leaves the source unchanged and never attempts
the delete. -/
theorem move_write_then_delete_witness :
    (∃ e, (moveArchive
        { openFails := false, createDirsFails := false, readFails := false,
          storeFails := true, deleteFails := false }
        msgA [msgA] DstBox.empty).err = some e) ∧
    (moveArchive
        { openFails := false, createDirsFails := false, readFails := false,
          storeFails := true, deleteFails := false }
        msgA [msgA] DstBox.empty).src = [msgA] ∧
    Op.delete ∉ (moveArchive
        { openFails := false, createDirsFails := false, readFails := false,
          storeFails := true, deleteFails := false }
        msgA [msgA] DstBox.empty).trace :=
  (move_write_then_delete
    { openFails := false, createDirsFails := false, readFails := false,
      storeFails := true, deleteFails := false }
    msgA [msgA] DstBox.empty).2 (Or.inr (Or.inr rfl))

/-- C8: in the Move strategy of src/archiver.rs, when the store succeeds
but the delete from the source fails, archive_email returns an error and
the message exists both in the source (unchanged) and in the destination
(its content and flags were stored); the stored copy is not rolled back. -/
theorem move_delete_failure_duplicates (fp : FailSpec) (mail : Msg)
    (src : List Msg) (dst : DstBox)
    (h1 : fp.openFails = false) (h2 : fp.createDirsFails = false)
    (h3 : fp.readFails = false) (h4 : fp.storeFails = false)
    (h5 : fp.deleteFails = true) (h6 : mail ∈ src) :
    (∃ e, (moveArchive fp mail src dst).err = some e) ∧
    (moveArchive fp mail src dst).src = src ∧
    mail ∈ (moveArchive fp mail src dst).src ∧
    (mail.content, mail.flags) ∈ (moveArchive fp mail src dst).dst.stored := by
  obtain ⟨fo, fc, fr, fs, fd⟩ := fp
  simp only at h1 h2 h3 h4 h5
  subst h1 h2 h3 h4 h5
  simp [moveArchive]
  exact h6

/-- Witness for C8: a concrete delete-only failure leaves msgA in the
source and stored in the destination, with an error returned. -/
theorem move_delete_failure_duplicates_witness :
    (∃ e, (moveArchive
        { openFails := false, createDirsFails := false, readFails := false,
          storeFails := false, deleteFails := true }
        msgA [msgA] DstBox.empty).err = some e) ∧
    (moveArchive
        { openFails := false, createDirsFails := false, readFails := false,
          storeFails := false, deleteFails := true }
        msgA [msgA] DstBox.empty).src = [msgA] ∧
    msgA ∈ (moveArchive
        { openFails := false, createDirsFails := false, readFails := false,
          storeFails := false, deleteFails := true }
        msgA [msgA] DstBox.empty).src ∧
    (msgA.content, msgA.flags) ∈ (moveArchive
        { openFails := false, createDirsFails := false, readFails := false,
          storeFails := false, deleteFails := true }
        msgA [msgA] DstBox.empty).dst.stored :=
  move_delete_failure_duplicates
    { openFails := false, createDirsFails := false, readFails := false,
      storeFails := false, deleteFails := true }
    msgA [msgA] DstBox.empty rfl rfl rfl rfl rfl (by simp)

/-- C2: for a message whose extracted date is strictly before the cutoff,
in Move or Copy mode, a successful (non-panicking) driver step leaves the
message's original content and flag set stored in the destination maildir
at exactly the folder the Path Resolver computes; and at the strategy
level of src/archiver.rs, a successful Move or Copy archive_email stores
the original content and flags in the destination. -/
theorem archive_preserves_content_flags :
    (∀ (o : MainOpts) (m : Msg) (fp : FailSpec) (w : World) (ts : Int),
      m.received = some ts →
      (o.mode = ArchiveMode.move ∨ o.mode = ArchiveMode.copy) →
      dateOfTimestamp ts < o.before →
      (stepMain o w (Entry.ok m fp)).panic = false →
      (m.content, m.flags) ∈
        (getDest (stepMain o w (Entry.ok m fp)).w
          (destFolder o (dateOfTimestamp ts))).stored) ∧
    (∀ (fp : FailSpec) (mail : Msg) (src : List Msg) (dst : DstBox),
      (moveArchive fp mail src dst).err = none →
      (mail.content, mail.flags) ∈ (moveArchive fp mail src dst).dst.stored) ∧
    (∀ (fp : FailSpec) (mail : Msg) (src : List Msg) (dst : DstBox),
      (copyArchive fp mail src dst).err = none →
      (mail.content, mail.flags) ∈ (copyArchive fp mail src dst).dst.stored) := by
  refine ⟨?_, ?_, ?_⟩
  · intro o m fp w ts hr hmode hd hp
    simp only [stepMain, hr] at hp ⊢
    rw [if_pos hd] at hp ⊢
    by_cases hcd : fp.createDirsFails = true
    · rw [if_pos hcd] at hp; simp at hp
    · rw [if_neg hcd] at hp ⊢
      obtain ⟨fo, fc, fr, fs, fd⟩ := fp
      rcases hmode with hm | hm <;> rw [hm] at hp ⊢ <;>
        cases fo <;> cases fr <;> cases fs <;> cases fd <;>
        simp [archiveMain, getDest_deleteFromSrc, getDest_storeInto,
          getDest_setDest] at hp ⊢
  · intro fp mail src dst herr
    obtain ⟨fo, fc, fr, fs, fd⟩ := fp
    cases fo <;> cases fc <;> cases fr <;> cases fs <;> cases fd <;>
      simp [moveArchive] at herr ⊢
  · intro fp mail src dst herr
    obtain ⟨fo, fc, fr, fs, fd⟩ := fp
    cases fo <;> cases fc <;> cases fr <;> cases fs <;> cases fd <;>
      simp [copyArchive] at herr ⊢

/-- Witness for C2: a fault-free Move step over msgA stores its content
and flags into the resolved destination folder. -/
theorem archive_preserves_content_flags_witness :
    (msgA.content, msgA.flags) ∈
      (getDest (stepMain optsStd (initWorld [msgA])
          (Entry.ok msgA FailSpec.noFail)).w
        (destFolder optsStd (dateOfTimestamp 1577836800))).stored :=
  archive_preserves_content_flags.1 optsStd msgA FailSpec.noFail
    (initWorld [msgA]) 1577836800 rfl (Or.inl rfl) (by decide) (by decide)

/-- C5: the Copy strategy of src/archiver.rs never modifies the source
message list, whatever the outcome of each primitive; and a whole driver
run in Copy or DryRun mode leaves the source maildir listing unchanged, so
its message count is never reduced and every message, an archived one
included, is still retrievable from the source. -/
theorem copy_dryrun_source_preserved :
    (∀ (fp : FailSpec) (mail : Msg) (src : List Msg) (dst : DstBox),
      (copyArchive fp mail src dst).src = src) ∧
    (∀ (o : MainOpts) (src0 : List Msg) (entries : List Entry),
      (o.mode = ArchiveMode.copy ∨ o.mode = ArchiveMode.dryRun) →
      (runMain o src0 entries).w.src = src0 ∧
      ∀ m ∈ src0, m ∈ (runMain o src0 entries).w.src) := by
  constructor
  · intro fp mail src dst
    obtain ⟨fo, fc, fr, fs, fd⟩ := fp
    cases fo <;> cases fc <;> cases fr <;> cases fs <;> cases fd <;> rfl
  · intro o src0 entries h
    have hsrc : (runMain o src0 entries).w.src = src0 :=
      runMainAux_src o h entries (initWorld src0) []
    exact ⟨hsrc, fun m hm => by rw [hsrc]; exact hm⟩

/-- Witness for C5: a Copy-mode run over the one-message source leaves the
source listing equal to what it was, with msgA still present. -/
theorem copy_dryrun_source_preserved_witness :
    (runMain { optsStd with mode := ArchiveMode.copy } [msgA]
      [Entry.ok msgA FailSpec.noFail]).w.src = [msgA] ∧
    ∀ m ∈ [msgA], m ∈ (runMain { optsStd with mode := ArchiveMode.copy }
      [msgA] [Entry.ok msgA FailSpec.noFail]).w.src :=
  copy_dryrun_source_preserved.2 { optsStd with mode := ArchiveMode.copy }
    [msgA] [Entry.ok msgA FailSpec.noFail] (Or.inl rfl)

/-- C6: the driver takes the archival path for an enumerated message with
an extracted timestamp exactly when its UTC calendar date is strictly
before the cutoff (the entering debug log line is emitted if and only if
date < cutoff); a message on or after the cutoff is only logged as ignored,
with the world unchanged and no panic; and the date of a timestamp ignores
the time of day. -/
theorem filter_strictly_before (o : MainOpts) (w : World) (m : Msg)
    (fp : FailSpec) (ts : Int) (h : m.received = some ts) :
    (dateOfTimestamp ts < o.before ↔
      LogEvent.olderDebug m.id ∈ (stepMain o w (Entry.ok m fp)).log) ∧
    (¬ dateOfTimestamp ts < o.before →
      stepMain o w (Entry.ok m fp) =
        { w := w, log := [LogEvent.ignoringDebug m.id], panic := false }) ∧
    (∀ dnum r : Int, 0 ≤ r → r < 86400 →
      dateOfTimestamp (86400 * dnum + r) = dnum) := by
  refine ⟨?_, ?_, ?_⟩
  · constructor
    · intro hd
      simp only [stepMain, h, if_pos hd]
      by_cases hcd : fp.createDirsFails = true
      · rw [if_pos hcd]; simp
      · rw [if_neg hcd, archiveMain_log]; simp
    · intro hmem
      by_contra hd
      simp only [stepMain, h, if_neg hd] at hmem
      simp at hmem
  · intro hd
    simp only [stepMain, h, if_neg hd]
  · intro dnum r h0 h1
    show (86400 * dnum + r).fdiv 86400 = dnum
    rw [Int.fdiv_eq_ediv _ (by norm_num)]
    omega

/-- Witness for C6: for msgA (dated 2020-01-01, before the 2022-01-01
cutoff) the driver enters the archival path, and the time-of-day fact at a
concrete instant. -/
theorem filter_strictly_before_witness :
    ((dateOfTimestamp 1577836800 < optsStd.before ↔
      LogEvent.olderDebug msgA.id ∈ (stepMain optsStd (initWorld [msgA])
        (Entry.ok msgA FailSpec.noFail)).log) ∧
    (¬ dateOfTimestamp 1577836800 < optsStd.before →
      stepMain optsStd (initWorld [msgA]) (Entry.ok msgA FailSpec.noFail) =
        { w := initWorld [msgA], log := [LogEvent.ignoringDebug msgA.id],
          panic := false }) ∧
    (∀ dnum r : Int, 0 ≤ r → r < 86400 →
      dateOfTimestamp (86400 * dnum + r) = dnum)) :=
  filter_strictly_before optsStd (initWorld [msgA]) msgA FailSpec.noFail
    1577836800 rfl

/-- C3 counterexample: a DryRun run over one message dated before the
cutoff ends with the destination maildir directory created (the driver of
src/main.rs calls create_dirs before dispatching, in every mode), so a
DryRun run does not leave everything unmutated. -/
theorem dryrun_creates_destination_cex :
    (getDest (runMain { optsStd with mode := ArchiveMode.dryRun } [msgA]
        [Entry.ok msgA FailSpec.noFail]).w "out/2020").created = true := by
  decide

/-- C3 amended: a DryRun run never mutates the source maildir listing and
never stores any message into any destination maildir, and the DryRun
strategy of src/archiver.rs itself has no effect at all; however the
driver may create destination maildir directories (see the
counterexample). -/
theorem dryrun_no_mutation_amended (o : MainOpts) (src0 : List Msg)
    (entries : List Entry) (h : o.mode = ArchiveMode.dryRun) :
    (runMain o src0 entries).w.src = src0 ∧
    (∀ p, (getDest (runMain o src0 entries).w p).stored = []) ∧
    (∀ (mail : Msg) (src : List Msg) (dst : DstBox),
      dryRunArchive mail src dst =
        { err := none, src := src, dst := dst, trace := [] }) := by
  refine ⟨runMainAux_src o (Or.inr h) entries (initWorld src0) [], ?_, ?_⟩
  · exact runMainAux_stored_dryRun o h entries (initWorld src0) []
      (fun _ => rfl)
  · intro mail src dst; rfl

/-- Witness for the amended C3: a concrete DryRun run keeps its
one-message source and stores nothing anywhere. -/
theorem dryrun_no_mutation_amended_witness :
    (runMain { optsStd with mode := ArchiveMode.dryRun } [msgA]
      [Entry.ok msgA FailSpec.noFail]).w.src = [msgA] ∧
    (∀ p, (getDest (runMain { optsStd with mode := ArchiveMode.dryRun }
        [msgA] [Entry.ok msgA FailSpec.noFail]).w p).stored = []) ∧
    (∀ (mail : Msg) (src : List Msg) (dst : DstBox),
      dryRunArchive mail src dst =
        { err := none, src := src, dst := dst, trace := [] }) :=
  dryrun_no_mutation_amended { optsStd with mode := ArchiveMode.dryRun }
    [msgA] [Entry.ok msgA FailSpec.noFail] rfl

/-- C4 counterexample: in Move mode, a store failure on the first message
panics (the unwrap on src/main.rs line 258) and aborts the whole run: the
second message is never processed, no log line of any kind is emitted for
it, contradicting the claim that every per-message failure is skipped with
processing continuing. -/
theorem per_message_error_aborts_cex :
    (runMain optsStd [msgA, msgB]
      [Entry.ok msgA
        { openFails := false, createDirsFails := false, readFails := false,
          storeFails := true, deleteFails := false },
       Entry.ok msgB FailSpec.noFail]).panic = true ∧
    LogEvent.ignoringDebug "m2" ∉ (runMain optsStd [msgA, msgB]
      [Entry.ok msgA
        { openFails := false, createDirsFails := false, readFails := false,
          storeFails := true, deleteFails := false },
       Entry.ok msgB FailSpec.noFail]).log ∧
    LogEvent.olderDebug "m2" ∉ (runMain optsStd [msgA, msgB]
      [Entry.ok msgA
        { openFails := false, createDirsFails := false, readFails := false,
          storeFails := true, deleteFails := false },
       Entry.ok msgB FailSpec.noFail]).log ∧
    LogEvent.archivingInfo "m2" ∉ (runMain optsStd [msgA, msgB]
      [Entry.ok msgA
        { openFails := false, createDirsFails := false, readFails := false,
          storeFails := true, deleteFails := false },
       Entry.ok msgB FailSpec.noFail]).log ∧
    LogEvent.dateError "m2" ∉ (runMain optsStd [msgA, msgB]
      [Entry.ok msgA
        { openFails := false, createDirsFails := false, readFails := false,
          storeFails := true, deleteFails := false },
       Entry.ok msgB FailSpec.noFail]).log := by
  decide

/-- C4 amended: corrupt enumeration entries and unextractable dates are
logged and skipped with the driver continuing, but a failure of the
destination-directory creation or an I/O failure (open, read, store)
during Move or Copy archiving is an unwrapped panic, and a panicking step
aborts the run immediately, the remaining entries unprocessed. -/
theorem per_message_error_policy_amended (o : MainOpts) (w : World)
    (m : Msg) (fp : FailSpec) (ts : Int) (es : List Entry)
    (log : List LogEvent) :
    (stepMain o w Entry.err =
      { w := w, log := [LogEvent.enumError], panic := false }) ∧
    (m.received = none →
      stepMain o w (Entry.ok m fp) =
        { w := w, log := [LogEvent.dateError m.id], panic := false }) ∧
    (m.received = some ts → dateOfTimestamp ts < o.before →
      fp.createDirsFails = true →
      (stepMain o w (Entry.ok m fp)).panic = true) ∧
    (m.received = some ts → dateOfTimestamp ts < o.before →
      fp.createDirsFails = false → fp.openFails = false →
      fp.readFails = false → fp.storeFails = true →
      (o.mode = ArchiveMode.move ∨ o.mode = ArchiveMode.copy) →
      (stepMain o w (Entry.ok m fp)).panic = true) ∧
    (∀ e, (stepMain o w e).panic = true →
      runMainAux o (e :: es) w log =
        { w := (stepMain o w e).w, log := log ++ (stepMain o w e).log,
          panic := true }) := by
  refine ⟨rfl, ?_, ?_, ?_, ?_⟩
  · intro hr; simp [stepMain, hr]
  · intro hr hd hcd
    simp [stepMain, hr, if_pos hd, hcd]
  · intro hr hd hcd ho hre hs hmode
    simp only [stepMain, hr, if_pos hd, hcd]
    rcases hmode with hm | hm <;> rw [hm] <;>
      simp [archiveMain, ho, hre, hs]
  · intro e hp
    simp only [runMainAux, if_pos hp]

/-- Witness for the amended C4: a concrete directory-creation failure on
an old message makes the step panic. -/
theorem per_message_error_policy_amended_witness :
    (stepMain optsStd (initWorld [msgA])
      (Entry.ok msgA
        { openFails := false, createDirsFails := true, readFails := false,
          storeFails := false, deleteFails := false })).panic = true :=
  (per_message_error_policy_amended optsStd (initWorld [msgA]) msgA
    { openFails := false, createDirsFails := true, readFails := false,
      storeFails := false, deleteFails := false }
    1577836800 [] []).2.2.1 rfl (by decide) rfl

theorem daysInMonth_le_31 (y : Int) (m : Nat) : daysInMonth y m ≤ 31 := by
  simp only [daysInMonth]
  split_ifs <;> omega

/-- C7: the Path Resolver is a total function; over every valid date and
every split policy it yields the output directory joined with the
formatted date wrapped in the configured name parts, where Year formats to
the four-digit year, Month to the year, a dash and the two-digit month,
Day additionally with a dash and the two-digit day, and None to the empty
string, so that under None every date resolves to the single bucket made
of the two name parts alone. -/
theorem resolver_total_and_formats (outputDir pfx sfx : String) (y : Int)
    (m d : Nat) (h : ValidYMD y m d) :
    (∀ p, resolve outputDir pfx sfx p y m d =
      outputDir ++ "/" ++ (pfx ++ formatSplit p y m d ++ sfx)) ∧
    formatSplit SplitBy.year y m d = fmtYear y ∧
    (fmtYear y).length = 4 ∧
    formatSplit SplitBy.month y m d = fmtYear y ++ "-" ++ fmt2 m ∧
    (fmt2 m).length = 2 ∧
    formatSplit SplitBy.day y m d =
      fmtYear y ++ "-" ++ fmt2 m ++ "-" ++ fmt2 d ∧
    (fmt2 d).length = 2 ∧
    formatSplit SplitBy.none y m d = "" ∧
    resolve outputDir pfx sfx SplitBy.none y m d =
      outputDir ++ "/" ++ (pfx ++ sfx) := by
  obtain ⟨hm1, hm2, hd1, hd2, hy0, hy1⟩ := h
  have hdm := daysInMonth_le_31 y m
  refine ⟨fun p => rfl, rfl, fmtYear_length y hy0 hy1, rfl,
    fmt2_length m (by omega), rfl, fmt2_length d (by omega), rfl, ?_⟩
  simp [resolve, formatSplit]

/-- Witness for C7: the resolver facts at the concrete valid date
2020-01-01. -/
theorem resolver_total_and_formats_witness :
    (∀ p, resolve "out" "pre" "post" p 2020 1 1 =
      "out" ++ "/" ++ ("pre" ++ formatSplit p 2020 1 1 ++ "post")) ∧
    formatSplit SplitBy.year 2020 1 1 = fmtYear 2020 ∧
    (fmtYear 2020).length = 4 ∧
    formatSplit SplitBy.month 2020 1 1 = fmtYear 2020 ++ "-" ++ fmt2 1 ∧
    (fmt2 1).length = 2 ∧
    formatSplit SplitBy.day 2020 1 1 =
      fmtYear 2020 ++ "-" ++ fmt2 1 ++ "-" ++ fmt2 1 ∧
    (fmt2 1).length = 2 ∧
    formatSplit SplitBy.none 2020 1 1 = "" ∧
    resolve "out" "pre" "post" SplitBy.none 2020 1 1 =
      "out" ++ "/" ++ ("pre" ++ "post") :=
  resolver_total_and_formats "out" "pre" "post" 2020 1 1
    (by unfold ValidYMD; decide)

/-- C9 counterexample: the exact scenario of the spec (messages dated
2020-01-01 and 2023-06-01, cutoff 2022-01-01, split by year, Move mode)
runs to completion with the first message archived and the second ignored,
yet the log ends after enumeration with no summary line at all: the driver
in src/main.rs never emits an archived-over-total count. -/
theorem summary_count_cex :
    (runMain optsStd [msgA, msgB]
      [Entry.ok msgA FailSpec.noFail, Entry.ok msgB FailSpec.noFail]).log =
      [LogEvent.olderDebug "m1", LogEvent.archivingInfo "m1",
       LogEvent.ignoringDebug "m2"] ∧
    (runMain optsStd [msgA, msgB]
      [Entry.ok msgA FailSpec.noFail, Entry.ok msgB FailSpec.noFail]).panic
      = false ∧
    (runMain optsStd [msgA, msgB]
      [Entry.ok msgA FailSpec.noFail, Entry.ok msgB FailSpec.noFail]).w.src
      = [msgB] ∧
    (getDest (runMain optsStd [msgA, msgB]
      [Entry.ok msgA FailSpec.noFail, Entry.ok msgB FailSpec.noFail]).w
        "out/2020").stored = [(msgA.content, msgA.flags)] ∧
    LogEvent.summary 1 2 ∉ (runMain optsStd [msgA, msgB]
      [Entry.ok msgA FailSpec.noFail, Entry.ok msgB FailSpec.noFail]).log := by
  decide

/-- C9 amended: after exhausting the enumeration the run terminates
without emitting any summary count; no log line of the
archived-over-total form is ever produced, for any configuration and any
enumeration. -/
theorem no_summary_emitted_amended (o : MainOpts) (src0 : List Msg)
    (entries : List Entry) :
    ∀ a t, LogEvent.summary a t ∉ (runMain o src0 entries).log :=
  fun a t =>
    runMainAux_no_summary o entries (initWorld src0) [] a t (by simp)

/-- Witness for the amended C9: the concrete scenario run contains no
one-of-two summary line. -/
theorem no_summary_emitted_amended_witness :
    LogEvent.summary 1 2 ∉ (runMain optsStd [msgA, msgB]
      [Entry.ok msgA FailSpec.noFail, Entry.ok msgB FailSpec.noFail]).log :=
  no_summary_emitted_amended optsStd [msgA, msgB]
    [Entry.ok msgA FailSpec.noFail, Entry.ok msgB FailSpec.noFail] 1 2

/-- C10: when no cutoff is supplied, the default is the current UTC
date-time with its year replaced by the previous year, unwrapped; on every
valid current date-time that is a February 29 the current year is a leap
year, the previous year is not, the replacement yields no date, and the
program panics before processing any message (empty log, untouched
source). -/
theorem default_cutoff_leap_day_panics (now : DateTimeU) (o : MainOpts)
    (src0 : List Msg) (entries : List Entry) (hv : ValidDT now)
    (hm : now.month = 2) (hd : now.day = 29) :
    oneYearAgo now = none ∧
    isLeap now.year = true ∧
    isLeap (now.year - 1) = false ∧
    (runProgram none now o src0 entries).panic = true ∧
    (runProgram none now o src0 entries).log = [] ∧
    (runProgram none now o src0 entries).w.src = src0 := by
  obtain ⟨-, -, -, h4⟩ := hv
  rw [hm, hd] at h4
  have hleap : isLeap now.year = true := by
    cases hl : isLeap now.year
    · rw [show daysInMonth now.year 2 = 28 from by simp [daysInMonth, hl]]
        at h4
      omega
    · rfl
  have hnl : isLeap (now.year - 1) = false := by
    simp only [isLeap, decide_eq_true_eq] at hleap
    simp only [isLeap, decide_eq_false_iff_not]
    omega
  have hone : oneYearAgo now = none := by
    simp [oneYearAgo, withYear, hm, hd, daysInMonth, hnl]
  refine ⟨hone, hleap, hnl, ?_, ?_, ?_⟩ <;>
    simp [runProgram, hone, initWorld]

/-- Witness for C10: on 2024-02-29 the default cutoff computation panics
with nothing processed. -/
theorem default_cutoff_leap_day_panics_witness :
    oneYearAgo { year := 2024, month := 2, day := 29 } = none ∧
    isLeap (2024 : Int) = true ∧
    isLeap ((2024 : Int) - 1) = false ∧
    (runProgram none { year := 2024, month := 2, day := 29 } optsStd [msgA]
      [Entry.ok msgA FailSpec.noFail]).panic = true ∧
    (runProgram none { year := 2024, month := 2, day := 29 } optsStd [msgA]
      [Entry.ok msgA FailSpec.noFail]).log = [] ∧
    (runProgram none { year := 2024, month := 2, day := 29 } optsStd [msgA]
      [Entry.ok msgA FailSpec.noFail]).w.src = [msgA] :=
  default_cutoff_leap_day_panics { year := 2024, month := 2, day := 29 }
    optsStd [msgA] [Entry.ok msgA FailSpec.noFail]
    (by unfold ValidDT; decide) rfl rfl

end ArchiveMaildir
